import Mathlib

/-!
Verification development for the `mq` STOMP client library.

The Go sources under `stomp/` (client.go, conn.go, options.go and the
frame writer) are shallowly embedded below.  Pure functions become Lean
functions; the stateful client operations become explicit state passing
over association lists standing for Go maps; the locking and I/O
structure of each client method is additionally embedded as a concrete
event trace.  The `Message` record and its named constants live in a
source file (message.go) that is not part of the provided tree, so those
definitions are modelled from the specification, as marked.
-/

set_option maxRecDepth 4096

/-! ## Association lists standing for Go maps

Go map semantics: assignment `m[k] = v` overwrites the entry for `k`,
`delete(m, k)` removes the key entirely, lookup returns the unique value
stored under the key.  Keys are strings throughout `client.go`. -/

/-- Lookup in an association list, first match. -/
def lookupA {α : Type} : List (String × α) → String → Option α
  | [], _ => none
  | (k0, v0) :: rest, k => if k0 = k then some v0 else lookupA rest k

/-- Insert with overwrite, the semantics of a Go map assignment. -/
def insertA {α : Type} : List (String × α) → String → α → List (String × α)
  | [], k, v => [(k, v)]
  | (k0, v0) :: rest, k, v =>
      if k0 = k then (k, v) :: rest else (k0, v0) :: insertA rest k v

/-- Delete a key, the semantics of Go `delete(m, k)`. -/
def eraseA {α : Type} (w : List (String × α)) (k : String) : List (String × α) :=
  w.filter (fun p => p.fst ≠ k)

/-! ## Decimal rendering

`strconv.AppendInt(nil, i, 10)` renders an integer in decimal.  The
digit production is embedded with explicit fuel (the fuel argument only
bounds recursion depth; `n + 1` steps always suffice to divide `n` down
below 10). -/

/-- One decimal digit character. -/
def decDigit : Nat → Char
  | 0 => '0'
  | 1 => '1'
  | 2 => '2'
  | 3 => '3'
  | 4 => '4'
  | 5 => '5'
  | 6 => '6'
  | 7 => '7'
  | 8 => '8'
  | 9 => '9'
  | _ => '!'

/-- Digit list of a natural number, most significant first, with fuel. -/
def natDigitsAux : Nat → Nat → List Char
  | 0, _ => []
  | fuel + 1, n =>
      if n < 10 then [decDigit n]
      else natDigitsAux fuel (n / 10) ++ [decDigit (n % 10)]

/-- Digit list of a natural number, most significant first. -/
def natDigits (n : Nat) : List Char := natDigitsAux (n + 1) n

/-- Decimal text of a natural number, as `strconv` renders nonnegative values. -/
def natRepr (n : Nat) : String := String.mk (natDigits n)

/-- Decimal text of an integer, the output of `strconv.AppendInt(nil, i, 10)`. -/
def intRepr (i : Int) : String :=
  if i < 0 then "-" ++ natRepr i.natAbs else natRepr i.natAbs

/-! ## Subscription identifier counter (`client.go`, `incr`)

```
func (c *Client) incr() []byte {
        c.mu.Lock()
        i := c.seq
        c.seq++
        c.mu.Unlock()
        return strconv.AppendInt(nil, i, 10)
}
```

`seq` is a Go `int64`; `c.seq++` wraps on overflow (two's complement). -/

/-- Wrap an unbounded integer to the Go `int64` range. -/
def int64wrap (x : Int) : Int :=
  (x + 9223372036854775808) % 18446744073709551616 - 9223372036854775808

/-- One call of `incr`: render the current `seq`, then post-increment it. -/
def incr (seq : Int) : String × Int := (intRepr seq, int64wrap (seq + 1))

/-- The value of `seq` after `n` calls of `incr` on a fresh Client. -/
def seqAfter : Nat → Int
  | 0 => 0
  | n + 1 => (incr (seqAfter n)).snd

/-- The identifier returned by the n-th call of `incr`, counting from 1. -/
def nthId (n : Nat) : String := (incr (seqAfter (n - 1))).fst

/-! ## Client message model

Modelled from the spec: the `Message` record of §3 (its source file,
message.go, is not under src/).  Only the attributes the Client session
code reads or writes are carried: `Method`, `ID`, `Dest`, `Subs`,
`Receipt` and `Body`, all byte-strings in `client.go` (`m.ID = id` with
`id []byte`; the server test sets `msg.ID = []byte("123")`). -/

structure CMsg where
  method : String
  id : String
  dest : String
  subsId : String
  receipt : String
  body : String
deriving DecidableEq, Repr

/-- Modelled from the spec: method constant of message.go (spec §3, §6). -/
def MethodStomp : String := "STOMP"

/-- Modelled from the spec: method constant of message.go (spec §3, §6). -/
def MethodConnected : String := "CONNECTED"

/-- Modelled from the spec: method constant of message.go (spec §3, §6). -/
def MethodSend : String := "SEND"

/-- Modelled from the spec: method constant of message.go (spec §3, §6). -/
def MethodSubscribe : String := "SUBSCRIBE"

/-- Modelled from the spec: method constant of message.go (spec §3, §6). -/
def MethodUnsubscribe : String := "UNSUBSCRIBE"

/-- Modelled from the spec: method constant of message.go (spec §3, §6). -/
def MethodAck : String := "ACK"

/-- Modelled from the spec: method constant of message.go (spec §3, §6). -/
def MethodNack : String := "NACK"

/-- Modelled from the spec: method constant of message.go (spec §3, §6). -/
def MethodMessage : String := "MESSAGE"

/-- Modelled from the spec: method constant of message.go (spec §3, §6);
the source spells the identifier `MethodRecipet`. -/
def MethodRecipet : String := "RECEIPT"

/-- Modelled from the spec: method constant of message.go (spec §3, §6). -/
def MethodDisconnect : String := "DISCONNECT"

/-- Modelled from the spec: method constant of message.go (spec §3, §6). -/
def MethodError : String := "ERROR"

/-- Build a client frame carrying a method and a receipt id; the other
fields do not influence the traces below. -/
def mkMsg (method rid : String) : CMsg :=
  { method := method, id := "", dest := "", subsId := "", receipt := rid, body := "" }

/-! ## Event traces of the Client methods

Each Client method of client.go is transcribed into the sequence of
lock, map/counter mutation, and I/O steps it performs, in program
order.  Branches (peer send failure, receipt option present) are
parameters. -/

inductive Ev where
  | lock
  | unlock
  | subsInsert (id : String)
  | subsDelete (id : String)
  | waitInsert (rid : String)
  | waitDelete (rid : String)
  | seqWrite
  | peerSend (method : String)
  | chanSend
  | chanRecv
  | handlerRun
deriving DecidableEq, Repr

/-- Trace of `sendMessage` (client.go): with an empty receipt it only
calls `c.peer.Send`; otherwise it stores the waiter channel in `c.wait`
(no mutex is taken), sends, blocks on the waiter on success, and the
deferred `delete(c.wait, ...)` runs on either return path. -/
def sendMessageTr (m : CMsg) (sendErr : Bool) : List Ev :=
  if m.receipt = "" then [Ev.peerSend m.method]
  else if sendErr then
    [Ev.waitInsert m.receipt, Ev.peerSend m.method, Ev.waitDelete m.receipt]
  else
    [Ev.waitInsert m.receipt, Ev.peerSend m.method, Ev.chanRecv, Ev.waitDelete m.receipt]

/-- Trace of `incr` (client.go): the seq counter is read and bumped
under the mutex. -/
def incrTr : List Ev := [Ev.lock, Ev.seqWrite, Ev.unlock]

/-- Trace of `Send` (client.go): build a SEND frame, delegate to
`sendMessage`. -/
def sendTr (rid : String) (sendErr : Bool) : List Ev :=
  sendMessageTr (mkMsg MethodSend rid) sendErr

/-- Trace of `Ack` (client.go): build an ACK frame, delegate to
`sendMessage`. -/
def ackTr (rid : String) (sendErr : Bool) : List Ev :=
  sendMessageTr (mkMsg MethodAck rid) sendErr

/-- Trace of `Nack` (client.go): build a NACK frame and hand it directly
to `c.peer.Send`, bypassing `sendMessage`. -/
def nackTr (_rid : String) : List Ev := [Ev.peerSend MethodNack]

/-- Trace of `Unsubscribe` (client.go): delete the handler under the
mutex, then delegate to `sendMessage`. -/
def unsubscribeTr (id rid : String) (sendErr : Bool) : List Ev :=
  [Ev.lock, Ev.subsDelete id, Ev.unlock] ++ sendMessageTr (mkMsg MethodUnsubscribe rid) sendErr

/-- Trace of `Subscribe` (client.go): allocate an id via `incr`,
register the handler under the mutex, delegate to `sendMessage`, and on
failure remove the handler again under the mutex. -/
def subscribeTr (id rid : String) (sendErr : Bool) : List Ev :=
  incrTr ++ [Ev.lock, Ev.subsInsert id, Ev.unlock]
    ++ sendMessageTr (mkMsg MethodSubscribe rid) sendErr
    ++ (if sendErr then [Ev.lock, Ev.subsDelete id, Ev.unlock] else [])

/-- Trace of `handleReceipt` (client.go): the wait map is read under the
mutex; a found waiter receives a value after the mutex is released. -/
def handleReceiptTr (found : Bool) : List Ev :=
  [Ev.lock, Ev.unlock] ++ (if found then [Ev.chanSend] else [])

/-- Trace of `handleMessage` (client.go): the subs map is read under the
mutex; a found handler runs after the mutex is released. -/
def handleMessageTr (found : Bool) : List Ev :=
  [Ev.lock, Ev.unlock] ++ (if found then [Ev.handlerRun] else [])

/-- Mutations of the Client's shared subs map, wait map, or seq counter. -/
def isMutation : Ev → Bool
  | Ev.subsInsert _ => true
  | Ev.subsDelete _ => true
  | Ev.waitInsert _ => true
  | Ev.waitDelete _ => true
  | Ev.seqWrite => true
  | _ => false

/-- Peer sends and channel operations, the I/O steps of the spec's
locking rule. -/
def isIOEvent : Ev → Bool
  | Ev.peerSend _ => true
  | Ev.chanSend => true
  | Ev.chanRecv => true
  | _ => false

/-- Scan a trace tracking mutex depth: true when every shared-state
mutation happens at positive depth. -/
def mutationsLockedAux : List Ev → Nat → Bool
  | [], _ => true
  | Ev.lock :: r, d => mutationsLockedAux r (d + 1)
  | Ev.unlock :: r, d => mutationsLockedAux r (d - 1)
  | e :: r, d => (!isMutation e || decide (0 < d)) && mutationsLockedAux r d

/-- Every mutation of subs, wait, or seq in the trace holds the mutex. -/
def mutationsLocked (tr : List Ev) : Bool := mutationsLockedAux tr 0

/-- Scan a trace tracking mutex depth: true when every I/O step happens
at depth zero. -/
def ioUnlockedAux : List Ev → Nat → Bool
  | [], _ => true
  | Ev.lock :: r, d => ioUnlockedAux r (d + 1)
  | Ev.unlock :: r, d => ioUnlockedAux r (d - 1)
  | e :: r, d => (!isIOEvent e || decide (d = 0)) && ioUnlockedAux r d

/-- The mutex is never held across I/O in the trace. -/
def ioUnlocked (tr : List Ev) : Bool := ioUnlockedAux tr 0

/-- Recognise a `peerSend` event. -/
def isPeerSend : Ev → Bool
  | Ev.peerSend _ => true
  | _ => false

/-- True when some event satisfying `p` occurs strictly before the
first `peerSend` of the trace. -/
def regBeforeSend (p : Ev → Bool) : List Ev → Bool
  | [] => false
  | e :: r => if isPeerSend e then false else (p e || regBeforeSend p r)

/-- Recognise the registration of a waiter channel under receipt id `rid`. -/
def isWaitInsertFor (rid : String) : Ev → Bool
  | Ev.waitInsert r => r == rid
  | _ => false

/-- Recognise the registration of a handler under subscription id `id`. -/
def isSubsInsertFor (id : String) : Ev → Bool
  | Ev.subsInsert i => i == id
  | _ => false

/-! ## State effects of `sendMessage` and `Subscribe` (client.go) -/

/-- Effect of `sendMessage` on the wait map (waiter channels are numbered):
no receipt leaves the map alone; otherwise the waiter is stored under the
receipt id and the deferred delete removes that key on every return path
(peer send failure included). -/
def sendMessageWait (wait : List (String × Nat)) (rid : String) (ch : Nat)
    (_sendErr : Bool) : List (String × Nat) :=
  if rid = "" then wait
  else eraseA (insertA wait rid ch) rid

/-- Effect of `Subscribe` on the subs map (handlers are numbered): the
handler is registered under the fresh id; when the send fails it is
deleted again before returning. -/
def subscribeSubs (subs : List (String × Nat)) (id : String) (h : Nat)
    (sendErr : Bool) : List (String × Nat) :=
  let s1 := insertA subs id h
  if sendErr then eraseA s1 id else s1

/-! ## Listen task dispatch (client.go, `listen` / `handleMessage`)

The switch of `listen` compares the inbound method against
`MethodMessage` and `MethodRecipet`; `handleMessage` looks the handler
up under the mutex.  The record shows who got the Message and whether
the listen task logged or released it. -/

structure Dispatch where
  handler : Option Nat
  receiptRouted : Bool
  logged : Bool
  released : Bool
deriving DecidableEq, Repr

/-- Dispatch of one inbound frame by the listen task.  Neither the
unknown-subscription branch, the unknown-method branch, nor
`handleReceipt` calls `m.Release()` in the source. -/
def listenDispatch (subs : List (String × Nat)) (m : CMsg) : Dispatch :=
  if m.method = MethodMessage then
    match lookupA subs m.subsId with
    | some h => { handler := some h, receiptRouted := false, logged := false, released := false }
    | none => { handler := none, receiptRouted := false, logged := true, released := false }
  else if m.method = MethodRecipet then
    { handler := none, receiptRouted := true, logged := false, released := false }
  else
    { handler := none, receiptRouted := false, logged := true, released := false }

/-- A MESSAGE frame for subscription id 9. -/
def msgNoSub : CMsg :=
  { method := MethodMessage, id := "", dest := "", subsId := "9", receipt := "", body := "" }

/-- An inbound frame whose method is neither MESSAGE nor RECEIPT. -/
def msgOther : CMsg :=
  { method := MethodError, id := "", dest := "", subsId := "", receipt := "", body := "" }

/-! ## Panic recovery of the listen task (client.go)

```
defer func() {
        if r := recover(); r != nil {
                logger.Warningf("stomp client: recover panic: %s", r)
                c.done <- r.(error)
        }
}()
```

A Go panic value is an arbitrary dynamic value; `r.(error)` is an
unchecked type assertion that itself panics unless the value implements
`error`. -/

inductive GoVal where
  | errVal (s : String)
  | strVal (s : String)
  | otherVal
deriving DecidableEq, Repr

/-- Outcome of the listen task's deferred recovery. -/
inductive ListenEnd where
  | delivered (v : GoVal)
  | crashed
deriving DecidableEq, Repr

/-- The deferred recovery block applied to a recovered panic value:
`c.done <- r.(error)` delivers the value only when it is an `error`;
for any other dynamic type the type assertion panics again and the
goroutine crashes with nothing on `done`. -/
def recoverDeliver : GoVal → ListenEnd
  | GoVal.errVal s => ListenEnd.delivered (GoVal.errVal s)
  | _ => ListenEnd.crashed

/-! ## Frame serializer (options.go, `writeTo`)

The writer treats `ID` and `Subs` as int64 and renders them with
`strconv.AppendInt` (the spec notes in §9 that the Message shape
conflates the integer `id` with wire message-ids). -/

/-- Modelled from the spec: header name constant of message.go (§4.B). -/
def HeaderAccept : String := "accept-version"

/-- Modelled from the spec: header name constant of message.go (§4.B). -/
def HeaderAck : String := "ack"

/-- Modelled from the spec: header name constant of message.go (§4.B). -/
def HeaderDest : String := "destination"

/-- Modelled from the spec: header name constant of message.go (§4.B). -/
def HeaderExpires : String := "expires"

/-- Modelled from the spec: header name constant of message.go (§4.B). -/
def HeaderID : String := "id"

/-- Modelled from the spec: header name constant of message.go (§4.B). -/
def HeaderLogin : String := "login"

/-- Modelled from the spec: header name constant of message.go (§4.B). -/
def HeaderMessageID : String := "message-id"

/-- Modelled from the spec: header name constant of message.go (§4.B). -/
def HeaderPass : String := "passcode"

/-- Modelled from the spec: header name constant of message.go (§4.B). -/
def HeaderPersist : String := "persistent"

/-- Modelled from the spec: header name constant of message.go (§4.B). -/
def HeaderPrefetch : String := "prefetch-count"

/-- Modelled from the spec: header name constant of message.go; the
RECEIPT row of the serializer table in §4.B.2 emits it as `receipt-id`. -/
def HeaderReceiptID : String := "receipt-id"

/-- Modelled from the spec: header name constant of message.go (§4.B). -/
def HeaderRetain : String := "retain"

/-- Modelled from the spec: header name constant of message.go (§4.B). -/
def HeaderSelector : String := "selector"

/-- Modelled from the spec: header name constant of message.go (§4.B). -/
def HeaderSubscription : String := "subscription"

/-- Modelled from the spec: header name constant of message.go (§4.B). -/
def HeaderVersion : String := "version"

/-- The writer's line terminator, `newline = []byte{'\r', '\n'}`. -/
def crlf : String := "\r\n"

/-- The writer's header separator, `separator = []byte{':'}`. -/
def sep : String := ":"

/-- Generic header set: ordered name/value pairs plus the used count
`itemc` (spec §3; the backing type lives in the missing message.go). -/
structure HeaderSet where
  items : List (String × String)
  itemc : Nat
deriving DecidableEq, Repr

/-- The generic header loop of `writeTo`: iterate `items`, stopping as
soon as the index reaches `itemc`. -/
def renderItems : List (String × String) → Nat → String
  | _, 0 => ""
  | [], _ => ""
  | (name, data) :: rest, k + 1 => name ++ sep ++ data ++ crlf ++ renderItems rest k

/-- The Message fields the serializer reads, with the writer's types:
`ID`, `Subs` and `Expires` are int64 there. -/
structure WMsg where
  method : String
  proto : String
  user : String
  pass : String
  dest : String
  retain : String
  persist : String
  selector : String
  prefetch : String
  ack : String
  receipt : String
  body : String
  expires : Int
  ID : Int
  subs : Int
  header : HeaderSet
deriving DecidableEq, Repr

/-- Condition for the extra receipt header (options.go):
`len(m.Receipt) != 0 && !bytes.Equal(m.Method, MethodRecipet)`. -/
def includeReceiptHeader (m : WMsg) : Bool :=
  (m.receipt != "") && (m.method != MethodRecipet)

/-- The method-specific header block of `writeTo`, the Go switch
transcribed case by case in source order. -/
def writeToSpecific (m : WMsg) : String :=
  if m.method = MethodStomp then
    HeaderAccept ++ sep ++ m.proto ++ crlf
      ++ (if m.user ≠ "" then HeaderLogin ++ sep ++ m.user ++ crlf else "")
      ++ (if m.pass ≠ "" then HeaderPass ++ sep ++ m.pass ++ crlf else "")
  else if m.method = MethodConnected then
    HeaderVersion ++ sep ++ m.proto ++ crlf
  else if m.method = MethodSend then
    HeaderDest ++ sep ++ m.dest ++ crlf
      ++ (if m.expires ≠ 0 then HeaderExpires ++ sep ++ intRepr m.expires ++ crlf else "")
      ++ (if m.retain ≠ "" then HeaderRetain ++ sep ++ m.retain ++ crlf else "")
      ++ (if m.persist ≠ "" then HeaderPersist ++ sep ++ m.persist ++ crlf else "")
  else if m.method = MethodSubscribe then
    HeaderID ++ sep ++ intRepr m.ID ++ crlf
      ++ HeaderDest ++ sep ++ m.dest ++ crlf
      ++ (if m.selector ≠ "" then HeaderSelector ++ sep ++ m.selector ++ crlf else "")
      ++ (if m.prefetch ≠ "" then HeaderPrefetch ++ sep ++ m.prefetch ++ crlf else "")
      ++ (if m.ack ≠ "" then HeaderAck ++ sep ++ m.ack ++ crlf else "")
  else if m.method = MethodUnsubscribe then
    HeaderID ++ sep ++ intRepr m.ID ++ crlf
  else if m.method = MethodAck then
    HeaderID ++ sep ++ intRepr m.ID ++ crlf
  else if m.method = MethodNack then
    HeaderID ++ sep ++ intRepr m.ID ++ crlf
  else if m.method = MethodMessage then
    HeaderMessageID ++ sep ++ intRepr m.ID ++ crlf
      ++ HeaderDest ++ sep ++ m.dest ++ crlf
      ++ HeaderSubscription ++ sep ++ intRepr m.subs ++ crlf
      ++ (if m.ack ≠ "" then HeaderAck ++ sep ++ m.ack ++ crlf else "")
  else if m.method = MethodRecipet then
    HeaderReceiptID ++ sep ++ m.receipt ++ crlf
  else
    ""

/-- The serializer `writeTo` of options.go: method line, method-specific
headers, the extra receipt header when requested, the generic headers up
to `itemc`, a blank line, then the body (the NUL terminator is written
by the transport, not here). -/
def writeTo (m : WMsg) : String :=
  m.method ++ crlf
    ++ writeToSpecific m
    ++ (if includeReceiptHeader m then HeaderReceiptID ++ sep ++ m.receipt ++ crlf else "")
    ++ renderItems m.header.items m.header.itemc
    ++ crlf
    ++ m.body

/-- Serializer following the claim's words instead of the source: the
extra receipt line is named exactly `receipt`. -/
def claimWriteTo (m : WMsg) : String :=
  m.method ++ crlf
    ++ writeToSpecific m
    ++ (if includeReceiptHeader m then "receipt" ++ sep ++ m.receipt ++ crlf else "")
    ++ renderItems m.header.items m.header.itemc
    ++ crlf
    ++ m.body

/-- A SEND frame with receipt id 7 and body `hi`. -/
def wmsgCex : WMsg :=
  { method := MethodSend, proto := "", user := "", pass := "", dest := "/q",
    retain := "", persist := "", selector := "", prefetch := "", ack := "",
    receipt := "7", body := "hi", expires := 0, ID := 0, subs := 0,
    header := { items := [], itemc := 0 } }

/-! ## ConnPeer transport (conn.go) -/

/-- Buffer size constant of conn.go, `32 << 10`. -/
def bufferSize : Nat := 32 <<< 10

/-- Buffer limit constant of conn.go, `32 << 15`; the code that would
apply it inside `readInto` is commented out. -/
def bufferLimit : Nat := 32 <<< 15

/-- The effect of `reader.ReadBytes(0)` on a byte stream: the bytes up
to the first NUL (frame, NUL excluded) and the remainder, or none when
the stream ends without a NUL (a read error). -/
def splitAtNul : List Nat → Option (List Nat × List Nat)
  | [] => none
  | b :: rest =>
      if b = 0 then some ([], rest)
      else
        match splitAtNul rest with
        | none => none
        | some (f, r) => some (b :: f, r)

/-- The read loop of `readInto` (conn.go), with fuel bounding recursion
depth: a read error ends the loop; a lone NUL is a heartbeat and is
skipped; any other frame is parsed and enqueued on `incoming`.  No size
check is performed. -/
def readIntoAux : Nat → List Nat → List (List Nat)
  | 0, _ => []
  | fuel + 1, l =>
      match splitAtNul l with
      | none => []
      | some (f, r) => if f = [] then readIntoAux fuel r else f :: readIntoAux fuel r

/-- Frames parsed and enqueued by the reader task for a given inbound
byte stream (`l.length + 1` fuel always suffices). -/
def readInto (l : List Nat) : List (List Nat) := readIntoAux (l.length + 1) l

/-- The stream-closed failure, `io.EOF` in the source (the StreamClosed
error kind of spec §7). -/
inductive PeerErr where
  | eofErr
deriving DecidableEq, Repr

/-- Channel and queue state of a connPeer; the close counters record how
many times each Go channel has been closed (closing a Go channel twice
panics). -/
structure PeerState where
  doneClosed : Bool
  incomingClosed : Bool
  outgoingClosed : Bool
  outgoing : List Nat
  doneCloseCount : Nat
  incomingCloseCount : Nat
  outgoingCloseCount : Nat
deriving DecidableEq, Repr

/-- The state `Conn` builds: nothing closed, nothing queued. -/
def connPeerInit : PeerState :=
  { doneClosed := false, incomingClosed := false, outgoingClosed := false,
    outgoing := [], doneCloseCount := 0, incomingCloseCount := 0, outgoingCloseCount := 0 }

/-- The `close` method of connPeer: when `done` is already closed return
`io.EOF`; otherwise close `done`, `incoming` and `outgoing`, each once. -/
def connClose (s : PeerState) : Option PeerErr × PeerState :=
  if s.doneClosed then (some PeerErr.eofErr, s)
  else
    (none,
      { s with
        doneClosed := true,
        incomingClosed := true,
        outgoingClosed := true,
        doneCloseCount := s.doneCloseCount + 1,
        incomingCloseCount := s.incomingCloseCount + 1,
        outgoingCloseCount := s.outgoingCloseCount + 1 })

/-- The `Send` method of connPeer: `io.EOF` once `done` is closed,
otherwise enqueue on `outgoing`. -/
def connSend (s : PeerState) (msg : Nat) : Option PeerErr × PeerState :=
  if s.doneClosed then (some PeerErr.eofErr, s)
  else (none, { s with outgoing := s.outgoing ++ [msg] })

/-! ## Helper lemmas -/

theorem lookupA_none_notMem {α : Type} (w : List (String × α)) (k : String)
    (h : lookupA w k = none) : ∀ p ∈ w, p.fst ≠ k := by
  induction w with
  | nil => intro p hp; cases hp
  | cons hd tl ih =>
      intro p hp
      rcases hd with ⟨k0, v0⟩
      by_cases hk : k0 = k
      · simp [lookupA, hk] at h
      · simp only [lookupA, if_neg hk] at h
        rcases List.mem_cons.mp hp with hp2 | hp2
        · simpa [hp2] using hk
        · exact ih h p hp2

theorem eraseA_insertA_of_absent {α : Type} (w : List (String × α)) (k : String) (v : α)
    (h : lookupA w k = none) : eraseA (insertA w k v) k = w := by
  induction w with
  | nil => simp [insertA, eraseA]
  | cons hd tl ih =>
      rcases hd with ⟨k0, v0⟩
      by_cases hk : k0 = k
      · simp [lookupA, hk] at h
      · simp only [lookupA, if_neg hk] at h
        simp only [insertA, if_neg hk, eraseA, List.filter]
        have hk2 : (decide ¬ k0 = k) = true := by simpa using hk
        simp only [hk2]
        have := ih h
        simpa [eraseA] using this

theorem lookupA_eraseA {α : Type} (w : List (String × α)) (k : String) :
    lookupA (eraseA w k) k = none := by
  induction w with
  | nil => simp [eraseA, lookupA]
  | cons hd tl ih =>
      rcases hd with ⟨k0, v0⟩
      by_cases hk : k0 = k
      · simpa [eraseA, List.filter, hk] using ih
      · have hk2 : (decide ¬ k0 = k) = true := by simpa using hk
        simp only [eraseA, List.filter, hk2] at *
        simpa [lookupA, if_neg hk] using ih

theorem lt_pow10 (n : Nat) : n < 10 ^ n := by
  induction n with
  | zero => simp
  | succ n ih =>
      have h1 : n + 1 ≤ 10 ^ n := ih
      have hp : 0 < (10 : Nat) ^ n := Nat.pos_pow_of_pos n (by omega)
      have h2 : 10 ^ (n + 1) = 10 ^ n * 10 := Nat.pow_succ 10 n
      omega

theorem natDigitsAux_congr :
    ∀ f : Nat, ∀ g n : Nat, 0 < f → 0 < g → n < 10 ^ f → n < 10 ^ g →
      natDigitsAux f n = natDigitsAux g n := by
  intro f
  induction f with
  | zero => intro g n hf; omega
  | succ f ih =>
      intro g n _ hg hnf hng
      rcases g with _ | g
      · omega
      by_cases hn : n < 10
      · simp [natDigitsAux, hn]
      · simp only [natDigitsAux, if_neg hn]
        have hf' : 0 < f := by
          by_contra hc
          have : f = 0 := by omega
          subst this
          simp at hnf
          omega
        have hg' : 0 < g := by
          by_contra hc
          have : g = 0 := by omega
          subst this
          simp at hng
          omega
        have hdivf : n / 10 < 10 ^ f := by
          apply Nat.div_lt_of_lt_mul
          calc n < 10 ^ (f + 1) := hnf
            _ = 10 * 10 ^ f := by ring
        have hdivg : n / 10 < 10 ^ g := by
          apply Nat.div_lt_of_lt_mul
          calc n < 10 ^ (g + 1) := hng
            _ = 10 * 10 ^ g := by ring
        rw [ih g (n / 10) hf' hg' hdivf hdivg]

theorem natDigits_small (n : Nat) (h : n < 10) : natDigits n = [decDigit n] := by
  simp [natDigits, natDigitsAux, h]

theorem natDigits_step (n : Nat) (h : 10 ≤ n) :
    natDigits n = natDigits (n / 10) ++ [decDigit (n % 10)] := by
  have h10 : ¬ n < 10 := by omega
  have hunf : natDigits n = natDigitsAux n (n / 10) ++ [decDigit (n % 10)] := by
    simp only [natDigits, natDigitsAux, if_neg h10]
  rw [hunf]
  unfold natDigits
  congr 1
  exact natDigitsAux_congr n (n / 10 + 1) (n / 10) (by omega) (by omega)
    (Nat.lt_of_le_of_lt (Nat.div_le_self n 10) (lt_pow10 n))
    (Nat.lt_of_lt_of_le (lt_pow10 (n / 10)) (Nat.pow_le_pow_right (by omega) (by omega)))

theorem natDigits_ne_nil (n : Nat) : natDigits n ≠ [] := by
  by_cases h : n < 10
  · simp [natDigits_small n h]
  · rw [natDigits_step n (by omega)]
    simp

theorem decDigit_inj :
    ∀ a : Nat, a < 10 → ∀ b : Nat, b < 10 → decDigit a = decDigit b → a = b := by
  decide

theorem natDigits_inj : ∀ a b : Nat, natDigits a = natDigits b → a = b := by
  intro a
  induction a using Nat.strong_induction_on with
  | _ a ih =>
      intro b hab
      by_cases ha : a < 10
      · by_cases hb : b < 10
        · rw [natDigits_small a ha, natDigits_small b hb] at hab
          exact decDigit_inj a ha b hb (by simpa using hab)
        · rw [natDigits_small a ha, natDigits_step b (by omega)] at hab
          have hlen := congrArg List.length hab
          have := natDigits_ne_nil (b / 10)
          simp at hlen
          exact absurd hlen.symm (by simpa [List.length_eq_zero] using this)
      · by_cases hb : b < 10
        · rw [natDigits_step a (by omega), natDigits_small b hb] at hab
          have hlen := congrArg List.length hab
          have := natDigits_ne_nil (a / 10)
          simp at hlen
          exact absurd hlen (by simpa [List.length_eq_zero] using this)
        · rw [natDigits_step a (by omega), natDigits_step b (by omega)] at hab
          have hsplit := List.append_inj' hab (by simp)
          have hdiv : a / 10 = b / 10 := by
            apply ih (a / 10) (Nat.div_lt_self (by omega) (by omega))
            exact hsplit.1
          have hmod : a % 10 = b % 10 := by
            have hc : decDigit (a % 10) = decDigit (b % 10) := by
              have := hsplit.2
              simpa using this
            exact decDigit_inj _ (Nat.mod_lt a (by omega)) _ (Nat.mod_lt b (by omega)) hc
          omega

theorem natRepr_inj : ∀ a b : Nat, natRepr a = natRepr b → a = b := by
  intro a b h
  apply natDigits_inj
  have : (natRepr a).data = (natRepr b).data := by rw [h]
  simpa [natRepr] using this

theorem intRepr_ofNat (n : Nat) : intRepr n = natRepr n := by
  simp [intRepr]

theorem int64wrap_step (x : Int) : int64wrap (int64wrap x + 1) = int64wrap (x + 1) := by
  unfold int64wrap
  omega

theorem int64wrap_small (n : Nat) (h : n < 9223372036854775808) :
    int64wrap n = n := by
  unfold int64wrap
  omega

theorem seqAfter_closed (n : Nat) : seqAfter n = int64wrap n := by
  induction n with
  | zero => simp [seqAfter]; decide
  | succ n ih =>
      have : seqAfter (n + 1) = int64wrap (seqAfter n + 1) := rfl
      rw [this, ih, int64wrap_step]
      norm_num

theorem nthId_succ (n : Nat) : nthId (n + 1) = intRepr (int64wrap n) := by
  simp [nthId, seqAfter_closed, incr]

theorem splitAtNul_append (l r : List Nat) (h : ∀ b ∈ l, b ≠ 0) :
    splitAtNul (l ++ 0 :: r) = some (l, r) := by
  induction l with
  | nil => simp [splitAtNul]
  | cons a l ih =>
      have ha : a ≠ 0 := h a (by simp)
      have h' : ∀ b ∈ l, b ≠ 0 := fun b hb => h b (by simp [hb])
      simp [splitAtNul, ha, ih h']

theorem splitAtNul_rest_length :
    ∀ l f r : List Nat, splitAtNul l = some (f, r) → r.length < l.length := by
  intro l
  induction l with
  | nil => intro f r h; simp [splitAtNul] at h
  | cons a l ih =>
      intro f r h
      by_cases ha : a = 0
      · simp [splitAtNul, ha] at h
        simp [← h.2]
      · simp only [splitAtNul, if_neg ha] at h
        cases hs : splitAtNul l with
        | none => rw [hs] at h; cases h
        | some p =>
            rcases p with ⟨f0, r0⟩
            rw [hs] at h
            simp at h
            have := ih f0 r0 hs
            simp [← h.2]
            omega

theorem readIntoAux_congr :
    ∀ fuel g l, l.length < fuel → l.length < g → readIntoAux fuel l = readIntoAux g l := by
  intro fuel
  induction fuel with
  | zero => intro g l h; omega
  | succ fuel ih =>
      intro g l hf hg
      rcases g with _ | g
      · omega
      cases hs : splitAtNul l with
      | none => simp [readIntoAux, hs]
      | some p =>
          rcases p with ⟨f, r⟩
          have hr := splitAtNul_rest_length l f r hs
          simp only [readIntoAux, hs]
          rw [ih g r (by omega) (by omega)]

theorem readInto_nil : readInto [] = [] := rfl

theorem readIntoAux_succ (fuel : Nat) (l : List Nat) :
    readIntoAux (fuel + 1) l =
      match splitAtNul l with
      | none => []
      | some (f, r) => if f = [] then readIntoAux fuel r else f :: readIntoAux fuel r := rfl

theorem readInto_step (l r : List Nat) (h : ∀ b ∈ l, b ≠ 0) (hne : l ≠ []) :
    readInto (l ++ 0 :: r) = l :: readInto r := by
  have hs := splitAtNul_append l r h
  unfold readInto
  rw [readIntoAux_succ, hs]
  dsimp only
  rw [if_neg hne]
  congr 1
  apply readIntoAux_congr
  · simp only [List.length_append, List.length_cons]
    omega
  · omega

/-! ## Claim C1 -/

/-- C1, amended: for every frame carrying a non-empty receipt id that a
Client operation routes through `sendMessage` — Send, Subscribe,
Unsubscribe and Ack — a waiter keyed by that receipt id is registered in
the wait map before the frame reaches `Peer.Send`; `Nack`, by contrast,
hands its frame directly to `Peer.Send` and never registers a waiter. -/
theorem c1_claim : ∀ rid : String, rid ≠ "" → ∀ e1 e2 e3 e4 : Bool, ∀ id : String,
    regBeforeSend (isWaitInsertFor rid) (sendTr rid e1) = true ∧
    regBeforeSend (isWaitInsertFor rid) (subscribeTr id rid e2) = true ∧
    regBeforeSend (isWaitInsertFor rid) (unsubscribeTr id rid e3) = true ∧
    regBeforeSend (isWaitInsertFor rid) (ackTr rid e4) = true ∧
    regBeforeSend (isWaitInsertFor rid) (nackTr rid) = false := by
  intro rid h e1 e2 e3 e4 id
  refine ⟨?_, ?_, ?_, ?_, rfl⟩
  · cases e1 <;>
      simp [sendTr, sendMessageTr, mkMsg, regBeforeSend, isPeerSend, isWaitInsertFor, h]
  · cases e2 <;>
      simp [subscribeTr, incrTr, sendMessageTr, mkMsg, regBeforeSend, isPeerSend,
        isWaitInsertFor, h]
  · cases e3 <;>
      simp [unsubscribeTr, sendMessageTr, mkMsg, regBeforeSend, isPeerSend,
        isWaitInsertFor, h]
  · cases e4 <;>
      simp [ackTr, sendMessageTr, mkMsg, regBeforeSend, isPeerSend, isWaitInsertFor, h]

/-- C1, counterexample to the claim as stated: a Nack with receipt id 42
reaches `Peer.Send` without any waiter having been registered. -/
theorem c1_counterexample :
    ¬ (regBeforeSend (isWaitInsertFor "42") (nackTr "42") = true) := by decide

/-- C1, witness. -/
theorem c1_witness :
    regBeforeSend (isWaitInsertFor "1") (sendTr "1" false) = true ∧
    regBeforeSend (isWaitInsertFor "1") (nackTr "1") = false :=
  ⟨(c1_claim "1" (by decide) false false false false "0").1,
   (c1_claim "1" (by decide) false false false false "0").2.2.2.2⟩

/-! ## Claim C2 -/

/-- C2, amended: a MESSAGE frame with a registered handler is passed to
that handler and the listen task neither logs nor releases it; a MESSAGE
frame with no registered handler, and any frame that is neither MESSAGE
nor RECEIPT, is logged and dropped without being released back to the
pool. -/
theorem c2_claim : ∀ (subs : List (String × Nat)) (m : CMsg) (h : Nat),
    (m.method = MethodMessage → lookupA subs m.subsId = some h →
      listenDispatch subs m =
        { handler := some h, receiptRouted := false, logged := false, released := false }) ∧
    (m.method = MethodMessage → lookupA subs m.subsId = none →
      listenDispatch subs m =
        { handler := none, receiptRouted := false, logged := true, released := false }) ∧
    (m.method ≠ MethodMessage → m.method ≠ MethodRecipet →
      listenDispatch subs m =
        { handler := none, receiptRouted := false, logged := true, released := false }) := by
  intro subs m h
  refine ⟨?_, ?_, ?_⟩ <;> intro h1 h2 <;> simp [listenDispatch, h1, h2]

/-- C2, counterexample to the claim as stated: the listen task does not
release a MESSAGE without handler, nor a frame of unknown method. -/
theorem c2_counterexample :
    ¬ ((listenDispatch [] msgNoSub).released = true) ∧
    ¬ ((listenDispatch [] msgOther).released = true) ∧
    (listenDispatch [] msgNoSub).logged = true ∧
    (listenDispatch [] msgOther).logged = true := by decide

/-- C2, witness. -/
theorem c2_witness :
    listenDispatch [("9", 5)] msgNoSub =
      { handler := some 5, receiptRouted := false, logged := false, released := false } :=
  (c2_claim [("9", 5)] msgNoSub 5).1 rfl (by decide)

/-! ## Claim C3 -/

/-- C3: Subscribe registers the handler under the freshly allocated id
before the SUBSCRIBE frame reaches `Peer.Send`, and when the send fails
the handler is deleted again, so a failed Subscribe leaves the subs map
as it was before the call. -/
theorem c3_claim : ∀ (subs : List (String × Nat)) (id : String) (h : Nat)
    (rid : String) (e : Bool), lookupA subs id = none →
    regBeforeSend (isSubsInsertFor id) (subscribeTr id rid e) = true ∧
    subscribeSubs subs id h true = subs := by
  intro subs id h rid e hid
  constructor
  · by_cases hr : rid = "" <;> cases e <;>
      simp [subscribeTr, incrTr, sendMessageTr, mkMsg, regBeforeSend, isPeerSend,
        isSubsInsertFor, hr]
  · simp only [subscribeSubs, if_pos rfl]
    exact eraseA_insertA_of_absent subs id h hid

/-- C3, witness. -/
theorem c3_witness :
    regBeforeSend (isSubsInsertFor "0") (subscribeTr "0" "" true) = true ∧
    subscribeSubs [] "0" 7 true = [] :=
  c3_claim [] "0" 7 "" true rfl

/-! ## Claim C4 -/

/-- C4: the deferred recovery of the listen task crashes on a panic
value that does not implement `error` (here a string), delivering
nothing on `done`; only an `error` panic value is delivered. -/
theorem c4_claim :
    recoverDeliver (GoVal.strVal "boom") = ListenEnd.crashed ∧
    recoverDeliver (GoVal.errVal "x") = ListenEnd.delivered (GoVal.errVal "x") ∧
    ListenEnd.crashed ≠ ListenEnd.delivered (GoVal.strVal "boom") := by decide

/-! ## Claim C5 -/

/-- C5, amended: for a Message with non-empty Receipt whose method is
not RECEIPT, the serializer emits after the method-specific headers a
header line named `receipt-id` (not `receipt`) with value Receipt,
followed by the generic Header items up to itemc, a blank line, and the
body; for a RECEIPT Message no extra receipt line is emitted beyond the
method-specific `receipt-id` header. -/
theorem c5_claim : ∀ m : WMsg,
    (m.receipt ≠ "" → m.method ≠ MethodRecipet →
      writeTo m = m.method ++ crlf ++ writeToSpecific m
        ++ (HeaderReceiptID ++ sep ++ m.receipt ++ crlf)
        ++ renderItems m.header.items m.header.itemc ++ crlf ++ m.body) ∧
    (m.method = MethodRecipet →
      writeTo m = m.method ++ crlf ++ (HeaderReceiptID ++ sep ++ m.receipt ++ crlf)
        ++ "" ++ renderItems m.header.items m.header.itemc ++ crlf ++ m.body) := by
  intro m
  constructor
  · intro h1 h2
    have hinc : includeReceiptHeader m = true := by
      simp [includeReceiptHeader, h1, h2]
    simp [writeTo, hinc]
  · intro h
    have hinc : includeReceiptHeader m = false := by
      simp [includeReceiptHeader, h]
    have hspec : writeToSpecific m = HeaderReceiptID ++ sep ++ m.receipt ++ crlf := by
      unfold writeToSpecific
      rw [h]
      rw [if_neg (by decide), if_neg (by decide), if_neg (by decide), if_neg (by decide),
        if_neg (by decide), if_neg (by decide), if_neg (by decide), if_neg (by decide),
        if_pos rfl]
    simp [writeTo, hinc, hspec]

/-- C5, counterexample to the claim as stated: the extra receipt line of
a SEND frame with Receipt 7 is named `receipt-id`, not `receipt`. -/
theorem c5_counterexample :
    writeTo wmsgCex ≠ claimWriteTo wmsgCex ∧
    writeTo wmsgCex = "SEND\r\ndestination:/q\r\nreceipt-id:7\r\n\r\nhi" ∧
    claimWriteTo wmsgCex = "SEND\r\ndestination:/q\r\nreceipt:7\r\n\r\nhi" := by decide

/-- C5, witness. -/
theorem c5_witness :
    writeTo wmsgCex = wmsgCex.method ++ crlf ++ writeToSpecific wmsgCex
      ++ (HeaderReceiptID ++ sep ++ wmsgCex.receipt ++ crlf)
      ++ renderItems wmsgCex.header.items wmsgCex.header.itemc ++ crlf ++ wmsgCex.body :=
  (c5_claim wmsgCex).1 (by decide) (by decide)

/-! ## Claim C6 -/

/-- C6, amended: the constant `bufferLimit` equals 1 MiB, but the reader
enforces no frame-size limit: every NUL-terminated nonempty frame,
regardless of its size, is parsed and enqueued on the incoming
channel. -/
theorem c6_claim : bufferLimit = 1048576 ∧
    ∀ (l r : List Nat), (∀ b ∈ l, b ≠ 0) → l ≠ [] →
      readInto (l ++ 0 :: r) = l :: readInto r :=
  ⟨by decide, readInto_step⟩

/-- C6, counterexample to the claim as stated: a frame of 1048577 bytes,
one past the 1 MiB limit, is still parsed and enqueued. -/
theorem c6_counterexample :
    readInto (List.replicate 1048577 65 ++ 0 :: []) = [List.replicate 1048577 65] ∧
    bufferLimit < (List.replicate 1048577 65).length := by
  constructor
  · rw [readInto_step]
    · rw [readInto_nil]
    · intro b hb
      rw [List.eq_of_mem_replicate hb]
      omega
    · intro hnil
      have h1 : (List.replicate 1048577 (65 : Nat)).length = 0 := by rw [hnil]; rfl
      rw [List.length_replicate] at h1
      omega
  · rw [List.length_replicate]
    decide

/-- C6, witness. -/
theorem c6_witness : readInto ([65] ++ 0 :: []) = [65] :: readInto [] :=
  c6_claim.2 [65] [] (by decide) (by decide)

/-! ## Claim C7 -/

/-- C7: the first Close of a connPeer closes done, incoming and outgoing
exactly once and succeeds; a second Close returns the stream-closed
failure without touching the state (so no channel is closed twice and
nothing panics), and a Send after Close returns the stream-closed
failure without enqueuing. -/
theorem c7_claim : ∀ s : PeerState, s.doneClosed = false →
    (connClose s).1 = none ∧
    ((connClose s).2).doneCloseCount = s.doneCloseCount + 1 ∧
    ((connClose s).2).incomingCloseCount = s.incomingCloseCount + 1 ∧
    ((connClose s).2).outgoingCloseCount = s.outgoingCloseCount + 1 ∧
    connClose ((connClose s).2) = (some PeerErr.eofErr, (connClose s).2) ∧
    ∀ msg : Nat, connSend ((connClose s).2) msg = (some PeerErr.eofErr, (connClose s).2) := by
  intro s h
  simp [connClose, connSend, h]

/-- C7, witness. -/
theorem c7_witness :
    (connClose connPeerInit).1 = none ∧
    connClose ((connClose connPeerInit).2) =
      (some PeerErr.eofErr, (connClose connPeerInit).2) ∧
    connSend ((connClose connPeerInit).2) 5 =
      (some PeerErr.eofErr, (connClose connPeerInit).2) :=
  ⟨(c7_claim connPeerInit rfl).1,
   (c7_claim connPeerInit rfl).2.2.2.2.1,
   (c7_claim connPeerInit rfl).2.2.2.2.2 5⟩

/-! ## Claim C8 -/

/-- C8, amended: the n-th `incr` call returns the decimal text of n-1
for every n-1 below 2^63 (so ten successive calls yield 0 through 9 in
order), and the identifiers of the first 2^63 calls are pairwise
distinct; beyond that the wrapping int64 counter goes negative. -/
theorem c8_claim :
    ((List.range 10).map (fun k => nthId (k + 1)) =
      ["0", "1", "2", "3", "4", "5", "6", "7", "8", "9"]) ∧
    (∀ n : Nat, n < 9223372036854775808 → nthId (n + 1) = natRepr n) ∧
    (∀ a b : Nat, a < 9223372036854775808 → b < 9223372036854775808 → a ≠ b →
      nthId (a + 1) ≠ nthId (b + 1)) := by
  refine ⟨by decide, ?_, ?_⟩
  · intro n hn
    rw [nthId_succ, int64wrap_small n hn, intRepr_ofNat]
  · intro a b ha hb hab
    rw [nthId_succ, int64wrap_small a ha, intRepr_ofNat, nthId_succ,
      int64wrap_small b hb, intRepr_ofNat]
    intro hc
    exact hab (natRepr_inj a b hc)

/-- C8, counterexample to the claim as stated: at call number 2^63 + 1
the int64 counter has wrapped to the minimum value, so the call returns
a negative decimal text instead of the decimal representation of 2^63. -/
theorem c8_counterexample :
    nthId (9223372036854775808 + 1) = "-9223372036854775808" ∧
    natRepr 9223372036854775808 = "9223372036854775808" ∧
    ("-9223372036854775808" : String) ≠ "9223372036854775808" := by
  refine ⟨?_, by decide, by decide⟩
  rw [nthId_succ]
  decide

/-- C8, witness. -/
theorem c8_witness :
    nthId 4 = natRepr 3 ∧ nthId 1 ≠ nthId 2 :=
  ⟨c8_claim.2.1 3 (by decide),
   c8_claim.2.2 0 1 (by decide) (by decide) (by decide)⟩

/-! ## Claim C9 -/

/-- C9: `sendMessage` on a frame with a receipt mutates the wait map
with the mutex not held (on both the success and the failure path),
violating the locking rule; the other Client methods do keep their subs,
wait and seq mutations under the mutex, and none of the traces performs
I/O while holding it. -/
theorem c9_claim :
    mutationsLocked (sendMessageTr (mkMsg MethodSend "7") false) = false ∧
    mutationsLocked (sendMessageTr (mkMsg MethodSend "7") true) = false ∧
    mutationsLocked incrTr = true ∧
    mutationsLocked (subscribeTr "0" "" false) = true ∧
    mutationsLocked (subscribeTr "0" "" true) = true ∧
    mutationsLocked (unsubscribeTr "0" "" false) = true ∧
    mutationsLocked (handleReceiptTr true) = true ∧
    mutationsLocked (handleMessageTr true) = true ∧
    ioUnlocked (sendMessageTr (mkMsg MethodSend "7") false) = true ∧
    ioUnlocked (subscribeTr "0" "7" false) = true ∧
    ioUnlocked (handleReceiptTr true) = true ∧
    ioUnlocked (handleMessageTr true) = true := by decide

/-! ## Claim C10 -/

/-- C10, amended: when no waiter is registered under the receipt id
before the call, `sendMessage` leaves the wait map exactly as it found
it on every return path; in every case no entry remains under the
receipt id once it returns, so a failed send never leaves a stale
waiter. -/
theorem c10_claim : ∀ (wait : List (String × Nat)) (rid : String) (ch : Nat) (e : Bool),
    rid ≠ "" →
    (lookupA wait rid = none → sendMessageWait wait rid ch e = wait) ∧
    lookupA (sendMessageWait wait rid ch e) rid = none := by
  intro wait rid ch e h
  constructor
  · intro habs
    simp only [sendMessageWait, if_neg h]
    exact eraseA_insertA_of_absent wait rid ch habs
  · simp only [sendMessageWait, if_neg h]
    exact lookupA_eraseA _ rid

/-- C10, counterexample to the claim as stated: when a waiter is already
registered under receipt id 7, `sendMessage` overwrites it and the
deferred delete then removes the key, so the wait map after the call
differs from the wait map before it. -/
theorem c10_counterexample :
    sendMessageWait [("7", 1)] "7" 2 true ≠ [("7", 1)] ∧
    sendMessageWait [("7", 1)] "7" 2 true = [] := by decide

/-- C10, witness. -/
theorem c10_witness :
    sendMessageWait [] "7" 1 true = [] ∧
    lookupA (sendMessageWait [] "7" 1 true) "7" = none :=
  ⟨(c10_claim [] "7" 1 true (by decide)).1 rfl,
   (c10_claim [] "7" 1 true (by decide)).2⟩
